import Mathlib

/-!
Verification development for the reddit-research crawl-and-reconcile core.

The definitions below are shallow embeddings of the Python source:
* `updateRow` / `processRow` embed the per-row body of `update_watch`
  (src/reddit_research/reddit_watch.py, lines 154-187),
* `rotate` embeds `rotate_archive_fns` (reddit_watch.py, lines 194-222)
  over an explicit file-system state,
* `updateWatchFS` embeds the file-level behaviour of `update_watch`,
* `getRedditInfo` embeds `get_reddit_info` (reddit_query.py, lines 73-115),
* `prefetch` embeds `prefetch_reddit_posts` (reddit_query.py, lines 57-70),
* `collectSeq` / `collectSample` embed the two branches of
  `collect_pushshift_results` (reddit_query.py, lines 257-310),
* `sampledIndex` embeds the `np.linspace(0, len(items)-1, limit).astype(int)`
  offset computation of `ordered_firsts_sample` (reddit-query.py, lines 225-233),
* `getJSONModel` embeds `get_JSON` (web_utils.py, lines 109-148).

Timestamps that only flow through string cells are kept as `String`;
numeric timestamps (epoch seconds) are `Nat`.  CSV "NA" cells are `Option`.
-/

/-- A live Reddit submission as used by `update_watch` and `get_reddit_info`
(`praw` submission object; `author` is `none` when the account is deleted). -/
structure Submission where
  id : String
  author : Option String
  selftext : String
  title : String
  removed_by_category : Option String
  deriving DecidableEq, Repr

/-- One row of the persisted watch CSV (columns written by
`init_watch_pushshift`).  `Option String` timestamp fields model
nullable "NA" cells, read back by pandas as NaN. -/
structure Row where
  id : String
  subreddit : String
  author_p : String
  del_author_p : String
  created_utc : String
  found_utc : String
  checked_utc : String
  del_author_r : Bool
  del_author_r_utc : Option String
  del_text_r : Bool
  del_text_r_utc : Option String
  rem_text_r : Bool
  rem_text_r_utc : Option String
  removed_by_category_r : String
  deriving DecidableEq, Repr

/-- The per-row body of `update_watch` (reddit_watch.py lines 161-187),
applied when the row's id was found in the prefetched submissions.
Guards read the *original* row (`row`), as `pd.isna(row[...])` does;
assignments accumulate into the updated row. -/
def updateRow (now : String) (row : Row) (sub : Submission) : Row :=
  let r1 := { row with checked_utc := now }
  let r2 :=
    if row.del_author_r_utc.isNone ∧
        (sub.author = some "[deleted]" ∨ sub.author = none) then
      { r1 with del_author_r := true, del_author_r_utc := some now }
    else r1
  let r3 :=
    if row.del_text_r_utc.isNone ∧
        (sub.selftext = "[deleted]" ∨ sub.title = "[deleted by user]") then
      { r2 with del_text_r := true, del_text_r_utc := some now }
    else r2
  if sub.selftext = "[removed]" then
    let category_new := sub.removed_by_category.getD "False"
    if category_new ≠ row.removed_by_category_r then
      let r4 :=
        if row.rem_text_r_utc.isNone then
          { r3 with rem_text_r := true, rem_text_r_utc := some now,
                    removed_by_category_r := category_new }
        else r3
      if category_new = "deleted" then
        { r4 with del_text_r := true, del_text_r_utc := some now,
                  removed_by_category_r := category_new }
      else r4
    else r3
  else r3

/-- Association-list lookup for the prefetched submissions dict
(`submissions[id_]`). -/
def alookup (l : List (String × Submission)) (k : String) : Option Submission :=
  match l with
  | [] => none
  | (a, b) :: t => if a = k then some b else alookup t k

/-- One iteration of the `for index, row in watched_df.iterrows()` loop of
`update_watch`: rows whose id is absent from the prefetched submissions are
skipped wholesale (`continue` fires before any cell is written). -/
def processRow (subs : List (String × Submission)) (now : String) (row : Row) : Row :=
  match alookup subs row.id with
  | none => row
  | some sub => updateRow now row sub

/-- The category string `update_watch` compares against
(`category_new`, lines 173-175): the live category, or the string
"False" when the live category is `None`. -/
def categoryNew (sub : Submission) : String := sub.removed_by_category.getD "False"

/- Field-wise characterizations of `updateRow`, proved once and shared. -/

theorem updateRow_checked (now : String) (row : Row) (sub : Submission) :
    (updateRow now row sub).checked_utc = now := by
  simp only [updateRow]
  split_ifs <;> simp_all

theorem updateRow_del_author_utc (now : String) (row : Row) (sub : Submission) :
    (updateRow now row sub).del_author_r_utc =
      if row.del_author_r_utc.isNone ∧
          (sub.author = some "[deleted]" ∨ sub.author = none) then some now
      else row.del_author_r_utc := by
  simp only [updateRow]
  split_ifs <;> simp_all

theorem updateRow_del_author_flag (now : String) (row : Row) (sub : Submission) :
    (updateRow now row sub).del_author_r =
      if row.del_author_r_utc.isNone ∧
          (sub.author = some "[deleted]" ∨ sub.author = none) then true
      else row.del_author_r := by
  simp only [updateRow]
  split_ifs <;> simp_all

theorem updateRow_rem_utc (now : String) (row : Row) (sub : Submission) :
    (updateRow now row sub).rem_text_r_utc =
      if sub.selftext = "[removed]" ∧ categoryNew sub ≠ row.removed_by_category_r ∧
          row.rem_text_r_utc.isNone then some now
      else row.rem_text_r_utc := by
  simp only [updateRow, categoryNew]
  split_ifs <;> simp_all

theorem updateRow_rem_flag (now : String) (row : Row) (sub : Submission) :
    (updateRow now row sub).rem_text_r =
      if sub.selftext = "[removed]" ∧ categoryNew sub ≠ row.removed_by_category_r ∧
          row.rem_text_r_utc.isNone then true
      else row.rem_text_r := by
  simp only [updateRow, categoryNew]
  split_ifs <;> simp_all

theorem updateRow_del_text_utc (now : String) (row : Row) (sub : Submission) :
    (updateRow now row sub).del_text_r_utc =
      if sub.selftext = "[removed]" ∧ categoryNew sub ≠ row.removed_by_category_r ∧
          categoryNew sub = "deleted" then some now
      else if row.del_text_r_utc.isNone ∧
          (sub.selftext = "[deleted]" ∨ sub.title = "[deleted by user]") then some now
      else row.del_text_r_utc := by
  simp only [updateRow, categoryNew]
  split_ifs <;> simp_all

theorem updateRow_category (now : String) (row : Row) (sub : Submission) :
    (updateRow now row sub).removed_by_category_r =
      if sub.selftext = "[removed]" ∧ categoryNew sub ≠ row.removed_by_category_r ∧
          (row.rem_text_r_utc.isNone ∨ categoryNew sub = "deleted") then categoryNew sub
      else row.removed_by_category_r := by
  simp only [updateRow, categoryNew]
  split_ifs <;> simp_all

theorem updateRow_del_text_flag (now : String) (row : Row) (sub : Submission) :
    (updateRow now row sub).del_text_r =
      if sub.selftext = "[removed]" ∧ categoryNew sub ≠ row.removed_by_category_r ∧
          categoryNew sub = "deleted" then true
      else if row.del_text_r_utc.isNone ∧
          (sub.selftext = "[deleted]" ∨ sub.title = "[deleted by user]") then true
      else row.del_text_r := by
  simp only [updateRow, categoryNew]
  split_ifs <;> simp_all

/-- A row whose text-deleted timestamp is already set, about to receive a
snapshot whose removal category changed to "deleted". -/
def rowC1 : Row :=
  { id := "x1", subreddit := "s", author_p := "alice", del_author_p := "FALSE",
    created_utc := "20220101 00:00:00", found_utc := "20220101 01:00:00",
    checked_utc := "20220102 00:00:00",
    del_author_r := false, del_author_r_utc := none,
    del_text_r := true, del_text_r_utc := some "20220102 00:00:00",
    rem_text_r := false, rem_text_r_utc := none,
    removed_by_category_r := "False" }

/-- Live snapshot: selftext shows "[removed]" and the removal category is
the literal "deleted". -/
def subC1 : Submission :=
  { id := "x1", author := some "alice", selftext := "[removed]",
    title := "a title", removed_by_category := some "deleted" }

/-- C1: the claim as stated is false.  `rowC1` has a non-empty text-deleted
timestamp (`20220102 00:00:00`), yet the reconciliation cycle at
`20220103 00:00:00` with snapshot `subC1` overwrites it: the
`category_new == "deleted"` branch of `update_watch` (lines 183-186) writes
`del_text_r_utc` without checking that it is still empty. -/
theorem C1_counterexample :
    rowC1.del_text_r_utc.isSome = true ∧
      (updateRow "20220103 00:00:00" rowC1 subC1).del_text_r_utc =
        some "20220103 00:00:00" ∧
      (updateRow "20220103 00:00:00" rowC1 subC1).del_text_r_utc ≠
        rowC1.del_text_r_utc := by
  refine ⟨rfl, ?_, ?_⟩ <;> simp [updateRow, rowC1, subC1]

/-- C1 (amended): the sticky-write invariant holds unconditionally for the
author-deleted and text-removed timestamp/flag pairs; for the text-deleted
pair it holds except when the snapshot's selftext is "[removed]" and its
removal category is the literal "deleted" and differs from the recorded
category, in which case `update_watch` re-stamps `del_text_r`/
`del_text_r_utc` even though they were already set. -/
theorem C1_sticky (now : String) (row : Row) (sub : Submission) :
    (row.del_author_r_utc.isSome →
      (updateRow now row sub).del_author_r_utc = row.del_author_r_utc ∧
      (updateRow now row sub).del_author_r = row.del_author_r)
    ∧ (row.rem_text_r_utc.isSome →
      (updateRow now row sub).rem_text_r_utc = row.rem_text_r_utc ∧
      (updateRow now row sub).rem_text_r = row.rem_text_r)
    ∧ (row.del_text_r_utc.isSome →
      ¬(sub.selftext = "[removed]" ∧ categoryNew sub = "deleted" ∧
          categoryNew sub ≠ row.removed_by_category_r) →
      (updateRow now row sub).del_text_r_utc = row.del_text_r_utc ∧
      (updateRow now row sub).del_text_r = row.del_text_r) := by
  refine ⟨fun h => ?_, fun h => ?_, fun h hnot => ?_⟩
  · have hn : ¬ row.del_author_r_utc.isNone := by
      cases hx : row.del_author_r_utc <;> simp_all
    rw [updateRow_del_author_utc, updateRow_del_author_flag]
    simp [hn]
  · have hn : ¬ row.rem_text_r_utc.isNone := by
      cases hx : row.rem_text_r_utc <;> simp_all
    rw [updateRow_rem_utc, updateRow_rem_flag]
    simp [hn]
  · have hn : ¬ row.del_text_r_utc.isNone := by
      cases hx : row.del_text_r_utc <;> simp_all
    rw [updateRow_del_text_utc, updateRow_del_text_flag]
    have hcond : ¬(sub.selftext = "[removed]" ∧
        categoryNew sub ≠ row.removed_by_category_r ∧
        categoryNew sub = "deleted") := by tauto
    simp [hcond, hn]

/-- A fully-transitioned row used to exercise `C1_sticky` concretely. -/
def rowC1w : Row :=
  { rowC1 with del_author_r := true, del_author_r_utc := some "A",
               rem_text_r := true, rem_text_r_utc := some "R" }

/-- A benign snapshot (nothing deleted or removed). -/
def subC1w : Submission :=
  { id := "x1", author := some "alice", selftext := "hello",
    title := "a title", removed_by_category := none }

/-- Witness for `C1_sticky` at a concrete row and snapshot. -/
theorem C1_sticky_witness :
    (updateRow "T" rowC1w subC1w).del_author_r_utc = rowC1w.del_author_r_utc ∧
    (updateRow "T" rowC1w subC1w).rem_text_r_utc = rowC1w.rem_text_r_utc ∧
    (updateRow "T" rowC1w subC1w).del_text_r_utc = rowC1w.del_text_r_utc := by
  have h := C1_sticky "T" rowC1w subC1w
  exact ⟨(h.1 (by decide)).1, (h.2.1 (by decide)).1,
    (h.2.2 (by decide) (by decide)).1⟩

/-- C2: removal-category change rule.  Starting from a row whose removed
timestamp is empty and whose recorded category is the initialization
sentinel (no category recorded yet), a cycle at `t1` whose snapshot shows
selftext "[removed]" with category "spam" sets `rem_text_r`, stamps
`rem_text_r_utc := t1` and records "spam"; a further cycle at `t2` whose
snapshot changed the category to "deleted" additionally sets `del_text_r`
and stamps `del_text_r_utc := t2`, leaving `rem_text_r_utc = t1` untouched. -/
theorem C2_category_change (t1 t2 : String) (row : Row) (s1 s2 : Submission)
    (hrow1 : row.rem_text_r_utc = none)
    (hrow2 : row.removed_by_category_r = "FALSE")
    (hs1a : s1.selftext = "[removed]") (hs1b : s1.removed_by_category = some "spam")
    (hs2a : s2.selftext = "[removed]") (hs2b : s2.removed_by_category = some "deleted") :
    (updateRow t1 row s1).rem_text_r = true ∧
    (updateRow t1 row s1).rem_text_r_utc = some t1 ∧
    (updateRow t1 row s1).removed_by_category_r = "spam" ∧
    (updateRow t2 (updateRow t1 row s1) s2).rem_text_r_utc = some t1 ∧
    (updateRow t2 (updateRow t1 row s1) s2).rem_text_r = true ∧
    (updateRow t2 (updateRow t1 row s1) s2).del_text_r = true ∧
    (updateRow t2 (updateRow t1 row s1) s2).del_text_r_utc = some t2 ∧
    (updateRow t2 (updateRow t1 row s1) s2).removed_by_category_r = "deleted" := by
  have hc1 : categoryNew s1 = "spam" := by simp [categoryNew, hs1b]
  have hc2 : categoryNew s2 = "deleted" := by simp [categoryNew, hs2b]
  have r1rem : (updateRow t1 row s1).rem_text_r = true := by
    rw [updateRow_rem_flag]; simp [hs1a, hc1, hrow1, hrow2]
  have r1remutc : (updateRow t1 row s1).rem_text_r_utc = some t1 := by
    rw [updateRow_rem_utc]; simp [hs1a, hc1, hrow1, hrow2]
  have r1cat : (updateRow t1 row s1).removed_by_category_r = "spam" := by
    rw [updateRow_category]; simp [hs1a, hc1, hrow1, hrow2]
  have r2remutc : (updateRow t2 (updateRow t1 row s1) s2).rem_text_r_utc = some t1 := by
    rw [updateRow_rem_utc]; simp [r1remutc]
  have r2rem : (updateRow t2 (updateRow t1 row s1) s2).rem_text_r = true := by
    rw [updateRow_rem_flag]; simp [r1remutc, r1rem]
  have r2del : (updateRow t2 (updateRow t1 row s1) s2).del_text_r = true := by
    rw [updateRow_del_text_flag]; simp [hs2a, hc2, r1cat]
  have r2delutc : (updateRow t2 (updateRow t1 row s1) s2).del_text_r_utc = some t2 := by
    rw [updateRow_del_text_utc]; simp [hs2a, hc2, r1cat]
  have r2cat : (updateRow t2 (updateRow t1 row s1) s2).removed_by_category_r = "deleted" := by
    rw [updateRow_category]; simp [hs2a, hc2, r1cat]
  exact ⟨r1rem, r1remutc, r1cat, r2remutc, r2rem, r2del, r2delutc, r2cat⟩

/-- A freshly initialized row (all sticky fields empty), as written by
`init_watch_pushshift`. -/
def rowC2 : Row :=
  { id := "y1", subreddit := "s", author_p := "bob", del_author_p := "FALSE",
    created_utc := "20220101 00:00:00", found_utc := "20220101 01:00:00",
    checked_utc := "20220101 01:00:00",
    del_author_r := false, del_author_r_utc := none,
    del_text_r := false, del_text_r_utc := none,
    rem_text_r := false, rem_text_r_utc := none,
    removed_by_category_r := "FALSE" }

/-- Snapshot removed as spam. -/
def subC2a : Submission :=
  { id := "y1", author := some "bob", selftext := "[removed]",
    title := "a title", removed_by_category := some "spam" }

/-- Snapshot whose category changed to "deleted". -/
def subC2b : Submission :=
  { subC2a with removed_by_category := some "deleted" }

/-- Witness for `C2_category_change` at concrete rows and snapshots. -/
theorem C2_category_change_witness :
    (updateRow "T1" rowC2 subC2a).rem_text_r_utc = some "T1" ∧
    (updateRow "T2" (updateRow "T1" rowC2 subC2a) subC2b).rem_text_r_utc = some "T1" ∧
    (updateRow "T2" (updateRow "T1" rowC2 subC2a) subC2b).del_text_r_utc = some "T2" := by
  have h := C2_category_change "T1" "T2" rowC2 subC2a subC2b
    (by decide) (by decide) (by decide) (by decide) (by decide) (by decide)
  exact ⟨h.2.1, h.2.2.2.1, h.2.2.2.2.2.2.1⟩

/-- A row whose `checked_utc` predates the cycle, with an id the bulk fetch
did not return. -/
def rowC8 : Row :=
  { rowC2 with id := "z9", checked_utc := "OLD" }

/-- C8: the claim as stated is false.  A row whose identifier is absent from
the prefetched submissions is skipped by the `continue` at line 158 of
`update_watch` *before* `checked_utc` is assigned, so its last-checked
timestamp keeps the stale value instead of the cycle time. -/
theorem C8_counterexample :
    alookup [] rowC8.id = none ∧
    (processRow [] "NEW" rowC8).checked_utc = "OLD" ∧
    (processRow [] "NEW" rowC8).checked_utc ≠ "NEW" := by
  refine ⟨rfl, rfl, by decide⟩

/-- C8 (amended): in a reconciliation cycle, `checked_utc` is set to the
cycle time for every row whose identifier is present in the bulk fetch
result; a row whose identifier is absent is skipped entirely and left
unchanged in all fields (including `checked_utc`). -/
theorem C8_last_checked (subs : List (String × Submission)) (now : String) (row : Row) :
    (∀ sub, alookup subs row.id = some sub →
      (processRow subs now row).checked_utc = now)
    ∧ (alookup subs row.id = none → processRow subs now row = row) := by
  constructor
  · intro sub hsub
    simp only [processRow, hsub]
    exact updateRow_checked now row sub
  · intro hnone
    simp only [processRow, hnone]

/-- Witness for `C8_last_checked`: a present id gets the cycle stamp, an
absent id leaves the row untouched. -/
theorem C8_last_checked_witness :
    (processRow [("y1", subC2a)] "NEW" rowC2).checked_utc = "NEW" ∧
    processRow [("y1", subC2a)] "NEW" rowC8 = rowC8 := by
  exact ⟨(C8_last_checked [("y1", subC2a)] "NEW" rowC2).1 subC2a (by decide),
    (C8_last_checked [("y1", subC2a)] "NEW" rowC8).2 (by decide)⟩

/-- A file on disk: either a watch CSV (a table of rows) or a zip archive
holding named copies of such tables. -/
inductive File where
  | table : List Row → File
  | zip : List (String × List Row) → File
  deriving DecidableEq, Repr

/-- The data directory as a name → file map (association list; all the
paths involved share one parent directory, so names suffice). -/
abbrev FS := List (String × File)

def fsLookup (fs : FS) (n : String) : Option File :=
  match fs with
  | [] => none
  | (a, f) :: t => if a = n then some f else fsLookup t n

/-- `Path.exists()`. -/
def fsExists (fs : FS) (n : String) : Bool := (fsLookup fs n).isSome

def fsRemove (fs : FS) (n : String) : FS :=
  match fs with
  | [] => []
  | (a, f) :: t => if a = n then fsRemove t n else (a, f) :: fsRemove t n

/-- Writing a file replaces any previous file of that name. -/
def fsWrite (fs : FS) (n : String) (f : File) : FS := (n, f) :: fsRemove fs n

/-- `Path.rename`: move file `a` to name `b` (no-op when `a` is absent). -/
def fsRename (fs : FS) (a b : String) : FS :=
  match fsLookup fs a with
  | some f => fsWrite (fsRemove fs a) b f
  | none => fs

/-- Python `str.removeprefix` (over the character list, so that concrete
instances reduce in the kernel). -/
def dropPre (p s : String) : String :=
  if p.data.isPrefixOf s.data then { data := s.data.drop p.data.length } else s

/-- Python `str.removesuffix`. -/
def dropSuf (suf s : String) : String :=
  if suf.data.isSuffixOf s.data then
    { data := s.data.take (s.data.length - suf.data.length) }
  else s

/-- `bare_fn = updated_fn.name.removeprefix("updated-").removesuffix(".csv")`. -/
def bareName (fn : String) : String := dropSuf ".csv" (dropPre "updated-" fn)

def stampedName (ts : Nat) (fn : String) : String :=
  bareName fn ++ "-arch_" ++ toString ts ++ ".csv"

def zipName (fn : String) : String := bareName fn ++ "-arch.zip"

def latestName (fn : String) : String := bareName fn ++ ".csv"

/-- Outcome of `rotate_archive_fns`: `err` is a raised (uncaught) exception,
`fs` the directory state when the call returns or the exception escapes,
`crit` whether `log.critical` fired (which does *not* raise). -/
structure RotateResult where
  err : Option String
  fs : FS
  crit : Bool
  deriving DecidableEq, Repr

/-- The two renames of `rotate_archive_fns` (lines 210-211): the current
latest file becomes the timestamp-suffixed copy, and the updated file
becomes the new latest. -/
def rotateRenamed (ts : Nat) (fn : String) (fs : FS) : FS :=
  fsRename (fsRename fs (latestName fn) (stampedName ts fn)) fn (latestName fn)

/-- `rotate_archive_fns` (reddit_watch.py lines 194-222) over the explicit
directory state.  `ts` is `NOW.int_timestamp`, `fn` the updated file's name. -/
def rotate (ts : Nat) (fn : String) (fs : FS) : RotateResult :=
  if ¬ fsExists fs fn then
    { err := some "RuntimeError", fs := fs, crit := false }
  else if fsExists fs (latestName fn) ∧ fsExists fs fn then
    let fs2 := rotateRenamed ts fn fs
    if fsExists fs2 (zipName fn) then
      match fsLookup fs2 (zipName fn), fsLookup fs2 (stampedName ts fn) with
      | some (File.zip entries), some (File.table rows) =>
        let fs3 := fsWrite fs2 (zipName fn) (File.zip (entries ++ [(stampedName ts fn, rows)]))
        { err := none, fs := fsRemove fs3 (stampedName ts fn), crit := false }
      | _, _ =>
        { err := some "BadZipFile", fs := fs2, crit := false }
    else
      { err := none, fs := fs2, crit := true }
  else
    { err := some "RuntimeError", fs := fs, crit := false }

/-- `update_watch` at the file level: read the watch CSV, update each row
against the prefetched submissions, and write the result to a *new* sibling
file named with an "updated-" prefix, returning that name (lines 146-191). -/
def updateWatchFS (subs : List (String × Submission)) (now : String)
    (fs : FS) (watched_fn : String) : Except String (FS × String) :=
  match fsLookup fs watched_fn with
  | none => Except.error "AssertionError"
  | some (File.zip _) => Except.error "ParserError"
  | some (File.table rows) =>
    let updated_fn := "updated-" ++ watched_fn
    Except.ok
      (fsWrite fs updated_fn (File.table (rows.map (processRow subs now))),
        updated_fn)

theorem fsLookup_fsRemove_ne (fs : FS) (n m : String) (h : m ≠ n) :
    fsLookup (fsRemove fs n) m = fsLookup fs m := by
  induction fs with
  | nil => rfl
  | cons p t ih =>
    obtain ⟨a, f⟩ := p
    by_cases ha : a = n
    · subst ha
      simp only [fsRemove, if_pos rfl, fsLookup, if_neg (Ne.symm h)]
      exact ih
    · simp only [fsRemove, if_neg ha, fsLookup]
      by_cases ham : a = m
      · simp [ham]
      · simp only [if_neg ham]
        exact ih

theorem fsLookup_fsWrite_self (fs : FS) (n : String) (f : File) :
    fsLookup (fsWrite fs n f) n = some f := by
  simp [fsWrite, fsLookup]

theorem fsLookup_fsWrite_ne (fs : FS) (n m : String) (f : File) (h : m ≠ n) :
    fsLookup (fsWrite fs n f) m = fsLookup fs m := by
  simp only [fsWrite, fsLookup, if_neg (by exact fun hc => h hc.symm : ¬ n = m)]
  exact fsLookup_fsRemove_ne fs n m h

/-- A directory holding the updated file and the latest file, but no
archive zip. -/
def fsC3 : FS :=
  [("updated-watch-s.csv", File.table []), ("watch-s.csv", File.table [rowC2])]

/-- A directory holding only the updated file (no latest file). -/
def fsC3miss : FS := [("updated-watch-s.csv", File.table [])]

/-- C3: the claim as stated is false for the missing-archive precondition.
With the updated and latest files present but the archive zip absent,
`rotate_archive_fns` raises no error — it only calls `log.critical`
("can't append stamped, ... not found") — and it has already renamed both
files by the time it notices, so the directory is mutated. -/
theorem C3_counterexample :
    fsExists fsC3 (zipName "updated-watch-s.csv") = false ∧
    (rotate 5 "updated-watch-s.csv" fsC3).err = none ∧
    (rotate 5 "updated-watch-s.csv" fsC3).crit = true ∧
    (rotate 5 "updated-watch-s.csv" fsC3).fs ≠ fsC3 := by
  refine ⟨rfl, rfl, rfl, by decide⟩

/-- C3 (amended): a missing updated file or a missing latest file raises a
fatal `RuntimeError` before any file mutation (the directory state is
returned unchanged).  A missing archive container, by contrast, is only
logged critically, the run continues, and the check happens after the two
renames have already been performed (the timestamped copy is left loose on
disk in the resulting state). -/
theorem C3_preconditions (ts : Nat) (fn : String) (fs : FS) :
    (fsExists fs fn = false →
      (rotate ts fn fs).err = some "RuntimeError" ∧ (rotate ts fn fs).fs = fs)
    ∧ (fsExists fs (latestName fn) = false →
      (rotate ts fn fs).err = some "RuntimeError" ∧ (rotate ts fn fs).fs = fs)
    ∧ (fsExists fs fn = true → fsExists fs (latestName fn) = true →
      fsExists (rotateRenamed ts fn fs) (zipName fn) = false →
      (rotate ts fn fs).err = none ∧ (rotate ts fn fs).crit = true ∧
      (rotate ts fn fs).fs = rotateRenamed ts fn fs) := by
  refine ⟨fun h => ?_, fun h => ?_, fun h1 h2 h3 => ?_⟩
  · simp [rotate, h]
  · by_cases hf : fsExists fs fn <;> simp [rotate, h, hf]
  · simp [rotate, h1, h2, h3]

/-- Witness for `C3_preconditions`: a missing latest file raises with no
mutation; a missing zip does not raise. -/
theorem C3_preconditions_witness :
    (rotate 5 "updated-watch-s.csv" fsC3miss).err = some "RuntimeError" ∧
    (rotate 5 "updated-watch-s.csv" fsC3miss).fs = fsC3miss ∧
    (rotate 5 "updated-watch-s.csv" fsC3).err = none := by
  have h1 := (C3_preconditions 5 "updated-watch-s.csv" fsC3miss).2.1 (by decide)
  have h2 := (C3_preconditions 5 "updated-watch-s.csv" fsC3).2.2
    (by decide) (by decide) (by decide)
  exact ⟨h1.1, h1.2, h2.1⟩

/-- C10: a reconciliation cycle does not mutate its input file.  Given a
watch table at `fn`, `update_watch` returns successfully, the input file's
contents are unchanged in the resulting directory, and the updated table is
written to the distinct sibling name `"updated-" ++ fn`, which is also the
returned path. -/
theorem C10_no_input_mutation (subs : List (String × Submission)) (now : String)
    (fs : FS) (fn : String) (rows : List Row)
    (h : fsLookup fs fn = some (File.table rows)) :
    updateWatchFS subs now fs fn =
      Except.ok (fsWrite fs ("updated-" ++ fn)
        (File.table (rows.map (processRow subs now))), "updated-" ++ fn)
    ∧ "updated-" ++ fn ≠ fn
    ∧ fsLookup (fsWrite fs ("updated-" ++ fn)
        (File.table (rows.map (processRow subs now)))) fn = some (File.table rows)
    ∧ fsLookup (fsWrite fs ("updated-" ++ fn)
        (File.table (rows.map (processRow subs now)))) ("updated-" ++ fn) =
          some (File.table (rows.map (processRow subs now))) := by
  have hne : "updated-" ++ fn ≠ fn := by
    intro hc
    have hlen := congrArg String.length hc
    rw [String.length_append] at hlen
    have h8 : ("updated-" : String).length = 8 := rfl
    omega
  refine ⟨by simp [updateWatchFS, h], hne, ?_, fsLookup_fsWrite_self _ _ _⟩
  rw [fsLookup_fsWrite_ne _ _ _ _ (fun hc => hne hc.symm)]
  exact h

/-- A one-row watch directory for the `C10_no_input_mutation` witness. -/
def fsC10 : FS := [("watch-s.csv", File.table [rowC2])]

/-- Witness for `C10_no_input_mutation` at a concrete directory. -/
theorem C10_no_input_mutation_witness :
    updateWatchFS [] "NOW" fsC10 "watch-s.csv" =
      Except.ok (fsWrite fsC10 "updated-watch-s.csv"
        (File.table [rowC2]), "updated-watch-s.csv")
    ∧ fsLookup (fsWrite fsC10 "updated-watch-s.csv" (File.table [rowC2]))
        "watch-s.csv" = some (File.table [rowC2]) := by
  have h := C10_no_input_mutation [] "NOW" fsC10 "watch-s.csv" [rowC2] (by decide)
  have hmap : [rowC2].map (processRow [] "NOW") = [rowC2] := by decide
  rw [hmap] at h
  exact ⟨h.1, h.2.2.1⟩

/-- Python `pat in s` substring test. -/
def containsSub (s pat : String) : Bool :=
  (List.range (s.data.length + 1)).any (fun i => pat.data.isPrefixOf (s.data.drop i))

/-- `is_throwaway` (reddit_query.py lines 50-54). -/
def isThrowaway (user_name : String) : Bool :=
  let name := user_name.toLower
  (containsSub name "throw" && containsSub name "away") || containsSub name "throwra"

/-- `get_reddit_info` (reddit_query.py lines 73-115): resolve one id against
the shelf cache, returning `(author_reddit, is_deleted, is_removed)`. -/
def getRedditInfo (skip throwaway_only : Bool) (shelf : List (String × Submission))
    (id_ author_pushshift : String) : String × Bool × Bool :=
  if skip then ("NA", false, false)
  else if throwaway_only && !isThrowaway author_pushshift then ("NA", false, false)
  else
    match alookup shelf id_ with
    | none => ("[deleted]", false, false)
    | some submission =>
      let author_reddit := match submission.author with
        | none => "[deleted]"
        | some a => a
      let is_removed := submission.selftext == "[removed]"
      let is_deleted :=
        (submission.selftext == "[deleted]" || submission.title == "[deleted by user]")
          || submission.removed_by_category == some "deleted"
      (author_reddit, is_deleted, is_removed)

/-- The downstream author-deleted column: `author_r == "[deleted]"`
(`del_author_r`, reddit_query.py line 155). -/
def delAuthorFlag (info : String × Bool × Bool) : Bool := info.1 == "[deleted]"

/-- C6: the claim as stated is false.  For an identifier absent from the
shelf, `get_reddit_info` returns the fixed triple
`("[deleted]", False, False)` — its author component is the deletion
sentinel, so the downstream `del_author_r` column (`author_r == "[deleted]"`)
is *true*, not the claimed author-deleted=false. -/
theorem C6_counterexample :
    getRedditInfo false false [] "x9" "alice" = ("[deleted]", false, false) ∧
    delAuthorFlag (getRedditInfo false false [] "x9" "alice") = true ∧
    delAuthorFlag (getRedditInfo false false [] "x9" "alice") ≠ false := by
  refine ⟨rfl, rfl, by decide⟩

/-- C6 (amended): an identifier absent from the bulk fetch result does not
fail the batch — `get_reddit_info` (after printing a warning) returns for
that identifier alone the fixed sentinel triple `("[deleted]", False, False)`:
text-deleted=false and text-removed=false, while the author field is the
"[deleted]" sentinel, which the downstream dataframe records as
author-deleted=true. -/
theorem C6_missing_id (shelf : List (String × Submission)) (id_ author_p : String)
    (h : alookup shelf id_ = none) :
    getRedditInfo false false shelf id_ author_p = ("[deleted]", false, false) ∧
    (getRedditInfo false false shelf id_ author_p).2.1 = false ∧
    (getRedditInfo false false shelf id_ author_p).2.2 = false ∧
    delAuthorFlag (getRedditInfo false false shelf id_ author_p) = true := by
  simp [getRedditInfo, h, delAuthorFlag]

/-- Witness for `C6_missing_id` on a concrete one-entry shelf. -/
theorem C6_missing_id_witness :
    getRedditInfo false false [("y1", subC2a)] "q7" "bob" =
      ("[deleted]", false, false) := by
  exact (C6_missing_id [("y1", subC2a)] "q7" "bob" (by decide)).1

/-- `t3_` fullname tagging in `prefetch_reddit_posts` (line 64). -/
def t3Tag (i : String) : String :=
  if ("t3_" : String).data.isPrefixOf i.data then i else "t3_" ++ i

/-- `ids_needed = set(ids_req) - ids_shelved` (line 63): the identifiers the
second component of the call must actually fetch. -/
def neededIds (shelf : List (String × Submission)) (ids_req : List String) :
    List String :=
  ids_req.dedup.filter (fun i => (alookup shelf i).isNone)

/-- The submissions the live source returns for the batched
`REDDIT.info(fullnames=t3_ids)` call (line 65): one optional record per
needed fullname. -/
def fetchedSubs (live : String → Option Submission)
    (shelf : List (String × Submission)) (ids_req : List String) :
    List Submission :=
  ((neededIds shelf ids_req).map t3Tag).filterMap live

/-- `prefetch_reddit_posts` (reddit_query.py lines 57-70): fetch only the
identifiers missing from the shelf and store each result keyed by
`submission.id` before returning the shelf. -/
def prefetch (live : String → Option Submission)
    (shelf : List (String × Submission)) (ids_req : List String) :
    List (String × Submission) :=
  (fetchedSubs live shelf ids_req).foldl (fun sh sub => (sub.id, sub) :: sh) shelf

theorem alookup_foldl_not_mem (subs : List Submission)
    (sh : List (String × Submission)) (k : String)
    (h : ∀ t ∈ subs, t.id ≠ k) :
    alookup (subs.foldl (fun a x => (x.id, x) :: a) sh) k = alookup sh k := by
  induction subs generalizing sh with
  | nil => rfl
  | cons x xs ih =>
    simp only [List.foldl_cons]
    rw [ih _ (fun t ht => h t (List.mem_cons_of_mem _ ht))]
    simp [alookup, h x (List.mem_cons_self _ _)]

theorem alookup_foldl_mem (subs : List Submission)
    (sh : List (String × Submission)) (k : String) (hs : ∃ s ∈ subs, s.id = k) :
    ∃ s', s' ∈ subs ∧ s'.id = k ∧
      alookup (subs.foldl (fun a x => (x.id, x) :: a) sh) k = some s' := by
  induction subs generalizing sh with
  | nil => obtain ⟨s, hmem, _⟩ := hs; cases hmem
  | cons x xs ih =>
    simp only [List.foldl_cons]
    by_cases hmem : ∃ t ∈ xs, t.id = k
    · obtain ⟨s', hs', hid, hlook⟩ := ih ((x.id, x) :: sh) hmem
      exact ⟨s', List.mem_cons_of_mem _ hs', hid, hlook⟩
    · have hxk : x.id = k := by
        obtain ⟨s, hsmem, hsk⟩ := hs
        cases hsmem with
        | head => exact hsk
        | tail _ hmem2 => exact absurd ⟨s, hmem2, hsk⟩ hmem
      refine ⟨x, List.mem_cons_self _ _, hxk, ?_⟩
      rw [alookup_foldl_not_mem xs _ k (fun t ht hc => hmem ⟨t, ht, hc⟩)]
      simp [alookup, hxk]

/-- C7: memoization of the shelf cache across two successive bulk prefetch
calls.  After `prefetch live shelf ids1`, a second call with `ids2` fetches
exactly the identifiers of `ids2` that are absent from the store at that
moment (identifiers already stored trigger no fetch), and every submission
the live source returns for the second call is written into the returned
store keyed by its identifier. -/
theorem C7_memoization (live : String → Option Submission)
    (shelf : List (String × Submission)) (ids1 ids2 : List String) :
    (∀ i ∈ neededIds (prefetch live shelf ids1) ids2,
      alookup (prefetch live shelf ids1) i = none ∧ i ∈ ids2)
    ∧ (∀ i ∈ ids2, alookup (prefetch live shelf ids1) i = none →
      i ∈ neededIds (prefetch live shelf ids1) ids2)
    ∧ (∀ s ∈ fetchedSubs live (prefetch live shelf ids1) ids2,
      ∃ s', s' ∈ fetchedSubs live (prefetch live shelf ids1) ids2 ∧
        s'.id = s.id ∧
        alookup (prefetch live (prefetch live shelf ids1) ids2) s.id = some s') := by
  refine ⟨?_, ?_, ?_⟩
  · intro i hi
    simp only [neededIds, List.mem_filter, List.mem_dedup,
      Option.isNone_iff_eq_none, decide_eq_true_eq] at hi
    exact ⟨hi.2, hi.1⟩
  · intro i hi hnone
    simp only [neededIds, List.mem_filter, List.mem_dedup,
      Option.isNone_iff_eq_none, decide_eq_true_eq]
    exact ⟨hi, hnone⟩
  · intro s hs
    exact alookup_foldl_mem _ _ s.id ⟨s, hs, rfl⟩

/-- A two-post live source for the `C7_memoization` witness. -/
def subA : Submission :=
  { id := "a", author := some "alice", selftext := "sa", title := "ta",
    removed_by_category := none }

def subB : Submission :=
  { id := "b", author := some "bob", selftext := "sb", title := "tb",
    removed_by_category := none }

def liveC7 : String → Option Submission := fun i =>
  if i = "t3_a" then some subA else if i = "t3_b" then some subB else none

/-- The store after a first prefetch of id "a" from an empty shelf. -/
def shelfC7 : List (String × Submission) := prefetch liveC7 [] ["a"]

/-- Witness for `C7_memoization`: on the second call with ids `["a", "b"]`,
the already-stored "a" is not fetched again, "b" is, and the fetched record
ends up in the store keyed by "b". -/
theorem C7_memoization_witness :
    ("a" ∉ neededIds shelfC7 ["a", "b"]) ∧
    ("b" ∈ neededIds shelfC7 ["a", "b"]) ∧
    alookup (prefetch liveC7 shelfC7 ["a", "b"]) "b" = some subB := by
  simp only [shelfC7]
  have h := C7_memoization liveC7 [] ["a"] ["a", "b"]
  refine ⟨fun hmem => absurd (h.1 "a" hmem).1 (by decide), ?_, ?_⟩
  · exact h.2.1 "b" (by decide) (by decide)
  · obtain ⟨s', hs', hid, hlook⟩ := h.2.2 subB (by decide)
    have hfetched :
        fetchedSubs liveC7 (prefetch liveC7 [] ["a"]) ["a", "b"] = [subB] := by
      decide
    rw [hfetched] at hs'
    have hz : s' = subB := List.mem_singleton.mp hs'
    subst hz
    exact hlook

/-- An HTTP response as far as `get_JSON` inspects it. -/
structure Resp where
  contentType : String
  content : String
  deriving DecidableEq, Repr

/-- Observable outcome of one `get_JSON` call: the sleeps performed (in
seconds, in order), the number of `requests.get` calls issued, and the
returned JSON content or the escaping exception. -/
structure FetchTrace where
  sleeps : List Nat
  requests : Nat
  result : Except String String
  deriving Repr

/-- `r.headers["content-type"].split(";")[0]` (web_utils.py line 142). -/
def ctMain (ct : String) : String :=
  { data := ct.data.takeWhile (fun c => c != ';') }

/-- The tail of `get_JSON` after a successful request (lines 142-148):
compare content types and either parse the body or raise `OSError`. -/
def finishJSON (reqCT : String) (sleeps : List Nat) (n : Nat) (r : Resp) :
    FetchTrace :=
  if reqCT = ctMain r.contentType then
    { sleeps := sleeps, requests := n, result := Except.ok r.content }
  else
    { sleeps := sleeps, requests := n, result := Except.error "URL content is not JSON." }

/-- `get_JSON` (web_utils.py lines 109-148) against a network oracle `net`
giving the outcome of the n-th `requests.get` (an `error` covers both
connection failures and `raise_for_status`).  The call first sleeps
`rate_limit`; on a first failure it sleeps 300 s and retries once; a second
failure propagates. -/
def getJSONModel (net : Nat → Except String Resp) (rate_limit : Nat)
    (reqCT : String) : FetchTrace :=
  match net 0 with
  | Except.ok r => finishJSON reqCT [rate_limit] 1 r
  | Except.error _ =>
    match net 1 with
    | Except.ok r => finishJSON reqCT [rate_limit, 300] 2 r
    | Except.error e2 =>
      { sleeps := [rate_limit, 300], requests := 2, result := Except.error e2 }

/-- C9: retry-once policy of the shared fetcher.  Every call issues at most
two requests; a successful first request means exactly one request; a first
failure adds the fixed 300-second backoff sleep and exactly one retry; and
when the retry also fails, that second error propagates as the call's
result. -/
theorem C9_retry_once (net : Nat → Except String Resp) (rl : Nat) (ct : String) :
    (getJSONModel net rl ct).requests ≤ 2
    ∧ (∀ r, net 0 = Except.ok r →
      (getJSONModel net rl ct).requests = 1 ∧ (getJSONModel net rl ct).sleeps = [rl])
    ∧ (∀ e, net 0 = Except.error e →
      (getJSONModel net rl ct).requests = 2 ∧
      (getJSONModel net rl ct).sleeps = [rl, 300])
    ∧ (∀ e e2, net 0 = Except.error e → net 1 = Except.error e2 →
      (getJSONModel net rl ct).result = Except.error e2) := by
  have hreq : ∀ s n r, (finishJSON ct s n r).requests = n := by
    intro s n r; unfold finishJSON; split_ifs <;> rfl
  have hsl : ∀ s n r, (finishJSON ct s n r).sleeps = s := by
    intro s n r; unfold finishJSON; split_ifs <;> rfl
  cases h0 : net 0 with
  | ok r0 =>
    refine ⟨?_, ?_, ?_, ?_⟩
    · simp [getJSONModel, h0, hreq]
    · intro r hr; simp [getJSONModel, h0, hreq, hsl]
    · intro e he; cases he
    · intro e e2 he _; cases he
  | error e0 =>
    cases h1 : net 1 with
    | ok r1 =>
      refine ⟨?_, ?_, ?_, ?_⟩
      · simp [getJSONModel, h0, h1, hreq]
      · intro r hr; cases hr
      · intro e he; simp [getJSONModel, h0, h1, hreq, hsl]
      · intro e e2 _ he2; cases he2
    | error e1 =>
      refine ⟨?_, ?_, ?_, ?_⟩
      · simp [getJSONModel, h0, h1]
      · intro r hr; cases hr
      · intro e he; simp [getJSONModel, h0, h1]
      · intro e e2 _ he2
        cases he2
        simp [getJSONModel, h0, h1]

/-- A network that always fails. -/
def netDown : Nat → Except String Resp := fun _ => Except.error "ConnectionError"

/-- Witness for `C9_retry_once` against an always-failing network: sleeps
`[2, 300]`, two requests, and the second error propagates. -/
theorem C9_retry_once_witness :
    (getJSONModel netDown 2 "application/json").requests = 2 ∧
    (getJSONModel netDown 2 "application/json").sleeps = [2, 300] ∧
    (getJSONModel netDown 2 "application/json").result =
      Except.error "ConnectionError" := by
  have h := C9_retry_once netDown 2 "application/json"
  exact ⟨(h.2.2.1 "ConnectionError" rfl).1, (h.2.2.1 "ConnectionError" rfl).2,
    h.2.2.2 "ConnectionError" "ConnectionError" rfl rfl⟩

/-- One raw Pushshift entry as the paginator consumes it. -/
structure PEntry where
  id : String
  created_utc : Nat
  deriving DecidableEq, Repr

/-- The limit parameter `query_pushshift` sends: capped at
`PUSHSHIFT_LIMIT = 100` (reddit_query.py lines 217-220). -/
def limitParam (limit : Nat) : Nat := if limit ≥ 100 then 100 else limit

/-- The `while len(results) != 0 and len(results_found) < limit` loop of the
sequential branch of `collect_pushshift_results` (lines 297-304), advancing
the lower bound to the last entry's creation time.  `oracle lp a b` is the
index source's page for `limit=lp, after=a, before=b`.  The loop runs at
most `limit + 1` iterations (each one either extends the accumulator or
stops), so the fuel never runs out for the given initial value. -/
def seqLoop (oracle : Nat → Nat → Nat → List PEntry) (limit before : Nat) :
    Nat → List PEntry → List PEntry → List PEntry
  | 0, _, acc => acc
  | fuel + 1, results, acc =>
    match results.getLast? with
    | none => acc
    | some lastE =>
      if acc.length < limit then
        let results2 := oracle (limitParam limit) lastE.created_utc before
        seqLoop oracle limit before fuel results2 (acc ++ results2)
      else acc

/-- The sequential (non-sample) branch of `collect_pushshift_results`
(lines 290-306): accumulate pages then truncate to `limit`. -/
def collectSeq (oracle : Nat → Nat → Nat → List PEntry)
    (limit after before : Nat) : List PEntry :=
  let results0 := oracle (limitParam limit) after before
  (seqLoop oracle limit before (limit + 1) results0 results0).take limit

/-- The sampling branch of `collect_pushshift_results` (lines 274-288):
one page per offset, all pages concatenated, *without* truncation.
`offsets` stands for the value of `rs.get_offsets(...)` — the
`reddit_sample` module is not part of the sources, so, modelled from the
spec, it is an arbitrary list of `row_limit` evenly spaced lower bounds
inside the window. -/
def collectSample (oracle : Nat → Nat → Nat → List PEntry)
    (offsets : List Nat) (limit before : Nat) : List PEntry :=
  offsets.foldl (fun acc off => acc ++ oracle (limitParam limit) off before) []

theorem mem_of_getLast?_some {α : Type} {l : List α} {a : α}
    (h : l.getLast? = some a) : a ∈ l := by
  obtain ⟨hne, heq⟩ := List.mem_getLast?_eq_getLast (Option.mem_def.mpr h)
  exact heq ▸ List.getLast_mem hne

theorem seqLoop_window (oracle : Nat → Nat → Nat → List PEntry)
    (limit before after : Nat)
    (horacle : ∀ lp a b, ∀ e ∈ oracle lp a b, a ≤ e.created_utc ∧ e.created_utc < b) :
    ∀ fuel results acc,
      (∀ e ∈ results, after ≤ e.created_utc ∧ e.created_utc < before) →
      (∀ e ∈ acc, after ≤ e.created_utc ∧ e.created_utc < before) →
      ∀ e ∈ seqLoop oracle limit before fuel results acc,
        after ≤ e.created_utc ∧ e.created_utc < before := by
  intro fuel
  induction fuel with
  | zero =>
    intro results acc _ hacc e he
    exact hacc e he
  | succ n ih =>
    intro results acc hres hacc e
    simp only [seqLoop]
    cases hlast : results.getLast? with
    | none => exact fun he => hacc e he
    | some lastE =>
      intro he
      by_cases hlen : acc.length < limit
      · simp only [if_pos hlen] at he
        have hlm : lastE ∈ results := mem_of_getLast?_some hlast
        have hafter : after ≤ lastE.created_utc := (hres lastE hlm).1
        refine ih _ _ ?_ ?_ e he
        · intro e2 he2
          have h1 := horacle (limitParam limit) lastE.created_utc before e2 he2
          exact ⟨le_trans hafter h1.1, h1.2⟩
        · intro e2 he2
          rcases List.mem_append.mp he2 with h | h
          · exact hacc e2 h
          · have h1 := horacle (limitParam limit) lastE.created_utc before e2 h
            exact ⟨le_trans hafter h1.1, h1.2⟩
      · simp only [if_neg hlen] at he
        exact hacc e he

theorem collectSample_go_len (oracle : Nat → Nat → Nat → List PEntry)
    (limit before : Nat)
    (hpage : ∀ lp a b, (oracle lp a b).length ≤ lp) :
    ∀ (offsets : List Nat) (acc : List PEntry),
      (offsets.foldl (fun acc off => acc ++ oracle (limitParam limit) off before) acc).length
        ≤ acc.length + offsets.length * limitParam limit := by
  intro offsets
  induction offsets with
  | nil => intro acc; simp
  | cons o os ih =>
    intro acc
    simp only [List.foldl_cons]
    have h1 := ih (acc ++ oracle (limitParam limit) o before)
    have h2 := hpage (limitParam limit) o before
    rw [List.length_append] at h1
    calc (os.foldl (fun acc off => acc ++ oracle (limitParam limit) off before)
            (acc ++ oracle (limitParam limit) o before)).length
        ≤ acc.length + (oracle (limitParam limit) o before).length
            + os.length * limitParam limit := h1
      _ ≤ acc.length + (o :: os).length * limitParam limit := by
          simp only [List.length_cons]
          have : (os.length + 1) * limitParam limit
              = os.length * limitParam limit + limitParam limit := by ring
          omega

theorem collectSample_go_window (oracle : Nat → Nat → Nat → List PEntry)
    (limit before after : Nat)
    (horacle : ∀ lp a b, ∀ e ∈ oracle lp a b, a ≤ e.created_utc ∧ e.created_utc < b) :
    ∀ (offsets : List Nat) (acc : List PEntry),
      (∀ off ∈ offsets, after ≤ off) →
      (∀ e ∈ acc, after ≤ e.created_utc ∧ e.created_utc < before) →
      ∀ e ∈ offsets.foldl (fun acc off => acc ++ oracle (limitParam limit) off before) acc,
        after ≤ e.created_utc ∧ e.created_utc < before := by
  intro offsets
  induction offsets with
  | nil => intro acc _ hacc e he; exact hacc e he
  | cons o os ih =>
    intro acc hoff hacc e he
    simp only [List.foldl_cons] at he
    refine ih _ (fun x hx => hoff x (List.mem_cons_of_mem _ hx)) ?_ e he
    intro e2 he2
    rcases List.mem_append.mp he2 with h | h
    · exact hacc e2 h
    · have h1 := horacle (limitParam limit) o before e2 h
      exact ⟨le_trans (hoff o (List.mem_cons_self _ _)) h1.1, h1.2⟩

/-- A page source returning two entries per query (at creation times
`after` and `after + 1`), capped at the requested page limit. -/
def oracleC4 : Nat → Nat → Nat → List PEntry := fun lp a _b =>
  ([{ id := "p" ++ toString a, created_utc := a },
    { id := "q" ++ toString a, created_utc := a + 1 }] : List PEntry).take lp

/-- C4: the claim as stated is false for the uniform-sampling strategy.
With `row_limit = 2` and the spec-mandated `row_limit` offsets (here
`[10, 20]`), the sampling branch of `collect_pushshift_results` extends
its result by one full page per offset and never truncates, returning 4
entries — more than `row_limit`.  (The oracle honors the page-size cap.) -/
theorem oracleC4_page_le (lp a b : Nat) : (oracleC4 lp a b).length ≤ lp :=
  List.length_take_le lp _

theorem C4_counterexample :
    (collectSample oracleC4 [10, 20] 2 100).length = 4 ∧
    ¬((collectSample oracleC4 [10, 20] 2 100).length ≤ 2) := by
  exact ⟨by decide, by decide⟩

/-- C4 (amended): provided the index source honors the page-size cap and
returns only entries inside the queried window, the *sequential* strategy
returns at most `row_limit` entries, all created within `[after, before)`;
the *sampling* strategy also returns only entries within the window
(offsets lie at or above `after`), but its batch is bounded only by
`row_limit` pages of `min(row_limit, 100)` entries each — it is not
truncated to `row_limit`. -/
theorem C4_row_bound (oracle : Nat → Nat → Nat → List PEntry)
    (limit after before : Nat) (offsets : List Nat)
    (hwin : ∀ lp a b, ∀ e ∈ oracle lp a b, a ≤ e.created_utc ∧ e.created_utc < b)
    (hpage : ∀ lp a b, (oracle lp a b).length ≤ lp)
    (hoff : ∀ off ∈ offsets, after ≤ off) :
    ((collectSeq oracle limit after before).length ≤ limit
      ∧ ∀ e ∈ collectSeq oracle limit after before,
          after ≤ e.created_utc ∧ e.created_utc < before)
    ∧ ((collectSample oracle offsets limit before).length
          ≤ offsets.length * limitParam limit
      ∧ ∀ e ∈ collectSample oracle offsets limit before,
          after ≤ e.created_utc ∧ e.created_utc < before) := by
  refine ⟨⟨List.length_take_le _ _, ?_⟩, ⟨?_, ?_⟩⟩
  · intro e he
    have he2 := List.mem_of_mem_take he
    refine seqLoop_window oracle limit before after hwin _ _ _ ?_ ?_ e he2
    · exact fun e2 he2 => hwin (limitParam limit) after before e2 he2
    · exact fun e2 he2 => hwin (limitParam limit) after before e2 he2
  · have h := collectSample_go_len oracle limit before hpage offsets []
    simpa [collectSample] using h
  · intro e he
    exact collectSample_go_window oracle limit before after hwin offsets []
      hoff (by intro e2 he2; cases he2) e he

/-- A window-respecting page source: up to two entries per query, filtered
to the queried `[a, b)` range and capped at the page limit. -/
def oracleW : Nat → Nat → Nat → List PEntry := fun lp a b =>
  (([{ id := "p", created_utc := a },
     { id := "q", created_utc := a + 1 }] : List PEntry).filter
    (fun e => decide (a ≤ e.created_utc) && decide (e.created_utc < b))).take lp

/-- Witness for `C4_row_bound` with the window-respecting oracle over the
window `[10, 100)` and offsets `[10, 20]`. -/
theorem C4_row_bound_witness :
    (collectSeq oracleW 2 10 100).length ≤ 2 ∧
    (collectSample oracleW [10, 20] 2 100).length ≤ 2 * limitParam 2 := by
  have hwin : ∀ lp a b, ∀ e ∈ oracleW lp a b,
      a ≤ e.created_utc ∧ e.created_utc < b := by
    intro lp a b e he
    have h1 := List.mem_of_mem_take he
    have h2 := (List.mem_filter.mp h1).2
    simp only [Bool.and_eq_true, decide_eq_true_eq] at h2
    exact h2
  have hpage : ∀ lp a b, (oracleW lp a b).length ≤ lp := by
    intro lp a b
    exact List.length_take_le _ _
  have hoff : ∀ off ∈ ([10, 20] : List Nat), 10 ≤ off := by decide
  have h := C4_row_bound oracleW 2 10 100 [10, 20] hwin hpage hoff
  exact ⟨h.1.1, h.2.1⟩

/-- The `np.linspace(0, len(items) - 1, limit).astype(int)` offset
computation of `ordered_firsts_sample` (reddit-query.py line 230), in exact
integer arithmetic: for `limit ≥ 2` entry `i` is
`⌊i * (total - 1) / (limit - 1)⌋` (numpy's truncation toward zero equals
the floor on these non-negative values, and linspace pins the final entry
to the stop value); `num = 1` yields only the start point and `num = 0` an
empty array. -/
def sampledIndex (total limit : Nat) : List Nat :=
  if limit = 0 then []
  else if limit = 1 then [0]
  else (List.range limit).map (fun i => i * (total - 1) / (limit - 1))

/-- C5: the claim as stated is false.  For `total_count = 2` and
`row_limit = 1` the computed offsets are `[0]`, which does not reach index
`total_count - 1 = 1`, so the sequence does not span the window. -/
theorem C5_counterexample :
    sampledIndex 2 1 = [0] ∧ (2 - 1 : Nat) ∉ sampledIndex 2 1 := by
  exact ⟨rfl, by decide⟩

/-- C5 (amended): for `total_count ≥ 1` and `row_limit ≥ 1` the offset
sequence has exactly `row_limit` entries (never fewer; duplicates appear
instead when `total_count < row_limit`), is monotonically non-decreasing —
strictly increasing when `row_limit ≤ total_count` — all offsets lie in
`[0, total_count - 1]`, the first offset is 0, and the last equals
`total_count - 1` provided `row_limit ≥ 2`; for `total_count = 37`,
`row_limit = 10` the offsets are exactly {0,4,8,12,16,20,24,28,32,36}. -/
theorem C5_offsets (total limit : Nat) (h1 : 1 ≤ total) (h2 : 1 ≤ limit) :
    (sampledIndex total limit).length = limit
    ∧ (sampledIndex total limit).Pairwise (· ≤ ·)
    ∧ (∀ o ∈ sampledIndex total limit, o ≤ total - 1)
    ∧ 0 ∈ sampledIndex total limit
    ∧ (2 ≤ limit → total - 1 ∈ sampledIndex total limit)
    ∧ (limit ≤ total → (sampledIndex total limit).Pairwise (· < ·))
    ∧ sampledIndex 37 10 = [0, 4, 8, 12, 16, 20, 24, 28, 32, 36] := by
  have hex : sampledIndex 37 10 = [0, 4, 8, 12, 16, 20, 24, 28, 32, 36] := by
    decide
  by_cases hl1 : limit = 1
  · subst hl1
    refine ⟨rfl, ?_, ?_, ?_, ?_, ?_, hex⟩
    · simp [sampledIndex]
    · intro o ho
      simp [sampledIndex] at ho
      omega
    · simp [sampledIndex]
    · intro h; omega
    · intro _; simp [sampledIndex]
  · have hne0 : limit ≠ 0 := by omega
    have hpos : 0 < limit - 1 := by omega
    have hunf : sampledIndex total limit =
        (List.range limit).map (fun i => i * (total - 1) / (limit - 1)) := by
      simp [sampledIndex, hne0, hl1]
    have hmono : ∀ i j : Nat, i ≤ j →
        i * (total - 1) / (limit - 1) ≤ j * (total - 1) / (limit - 1) := by
      intro i j hij
      exact Nat.div_le_div_right (Nat.mul_le_mul_right _ hij)
    have hlast : (limit - 1) * (total - 1) / (limit - 1) = total - 1 :=
      Nat.mul_div_cancel_left _ hpos
    refine ⟨?_, ?_, ?_, ?_, ?_, ?_, hex⟩
    · simp [hunf]
    · rw [hunf]
      exact (List.pairwise_lt_range limit).map _ (fun a b hab => hmono a b hab.le)
    · intro o ho
      rw [hunf] at ho
      obtain ⟨i, hi, rfl⟩ := List.mem_map.mp ho
      have hi2 : i ≤ limit - 1 := by
        have := List.mem_range.mp hi
        omega
      have := hmono i (limit - 1) hi2
      omega
    · rw [hunf]
      have h0 : (fun i => i * (total - 1) / (limit - 1)) 0 = 0 := by simp
      have hm : (0 : Nat) ∈ List.range limit := List.mem_range.mpr (by omega)
      exact h0 ▸ List.mem_map_of_mem _ hm
    · intro _
      rw [hunf]
      have hm : limit - 1 ∈ List.range limit := List.mem_range.mpr (by omega)
      have hmm := List.mem_map_of_mem (fun i => i * (total - 1) / (limit - 1)) hm
      simp only at hmm
      rwa [hlast] at hmm
    · intro hlt
      rw [hunf]
      have hstep : ∀ i : Nat,
          i * (total - 1) / (limit - 1) + 1 ≤ (i + 1) * (total - 1) / (limit - 1) := by
        intro i
        have hle : limit - 1 ≤ total - 1 := by omega
        have hdist : (i + 1) * (total - 1) = i * (total - 1) + (total - 1) := by ring
        rw [hdist]
        have hup : (i * (total - 1) + (limit - 1)) / (limit - 1)
            ≤ (i * (total - 1) + (total - 1)) / (limit - 1) :=
          Nat.div_le_div_right (by omega)
        rw [Nat.add_div_right _ hpos] at hup
        exact hup
      have hstrict : ∀ i j : Nat, i < j →
          i * (total - 1) / (limit - 1) < j * (total - 1) / (limit - 1) := by
        intro i j hij
        have ha := hstep i
        have hb := hmono (i + 1) j (by omega)
        omega
      exact (List.pairwise_lt_range limit).map _ (fun a b hab => hstrict a b hab)

/-- Witness for `C5_offsets` at `total_count = 37`, `row_limit = 10`. -/
theorem C5_offsets_witness :
    (sampledIndex 37 10).length = 10 ∧ (36 : Nat) ∈ sampledIndex 37 10 := by
  have h := C5_offsets 37 10 (by omega) (by omega)
  exact ⟨h.1, by simpa using h.2.2.2.2.1 (by omega)⟩
